import Mathlib

/-!
Verification of the s3-uploader watcher (src/src/main.py) against its
natural-language specification.

The embedding models time in tenths of a second, so the 0.5 s poll sleep
is 5, the 1 s lock/error backoff is 10, and the default 60 s timeout is
600.  File sizes are natural numbers as returned by os.path.getsize; the
sentinel initial value of last_size is the integer -1, so DetState stores
sizes as integers.
-/

namespace S3Uploader

/-! ### Configuration constants (module-level constants in main.py) -/

def MAX_RETRIES : Nat := 3

def STABLE_CHECKS : Nat := 3

def EXCLUDED_PREFIXES : List (List Char) :=
  ["xxx123xxx".toList, "yyy123yyy".toList]

def ALLOWED_EXTS : List (List Char) :=
  [".dat".toList, ".bvr".toList, ".avi".toList,
   ".mov".toList, ".jpg".toList, ".mp4".toList]

/-- The module constant named after the remote key namespace,
"camera/" in main.py. -/
def KEY_PREF : List Char := "camera/".toList

/-! ### Stability detector: `_wait_for_file_ready`

One loop iteration of `_wait_for_file_ready` observes the file once.  A
`Sample` records what the OS calls of that iteration would report:

* `ok size` — the path exists, `os.path.getsize` returns `size`, and the
  open/read probe succeeds;
* `locked` — a `PermissionError` is raised while probing;
* `vanished` — `os.path.exists` is false, so the body raises
  `FileNotFoundError`; because `FileNotFoundError` is a subclass of
  `OSError` and the probe runs inside the `try`, this exception is caught
  by the function's own `except OSError` clause (it never propagates);
* `osError` — some other `OSError` is raised while probing.
-/

inductive Sample where
  | ok (size : Nat)
  | locked
  | vanished
  | osError
deriving DecidableEq, Repr

/-- The mutable loop state of `_wait_for_file_ready`: `last_size`
(initially -1), `stable_count` (initially 0) and the elapsed time in
tenths of a second (sleeps are the only time the model charges). -/
structure DetState where
  lastSize : Int
  stableCount : Nat
  elapsed : Nat
deriving DecidableEq, Repr

def initState : DetState := ⟨-1, 0, 0⟩

/-- One iteration body of the polling loop, after the existence check and
size/open probe resolved to the given `Sample`.

* `ok size`: `if size == last_size and size > 0: stable_count += 1 else
  stable_count = 0`, then `last_size = size`, then `time.sleep(0.5)`;
* `locked` (`except PermissionError`): `stable_count = 0`,
  `last_size = -1`, `time.sleep(1)`;
* `vanished` and `osError` (both land in `except OSError`): log,
  `stable_count = 0`, `time.sleep(1)`; `last_size` is left unchanged
  because the assignment `last_size = size` sits after the raising code.
-/
def detStep (st : DetState) : Sample → DetState
  | Sample.ok size =>
      ⟨(size : Int),
       if (size : Int) = st.lastSize ∧ 0 < size then st.stableCount + 1 else 0,
       st.elapsed + 5⟩
  | Sample.locked => ⟨-1, 0, st.elapsed + 10⟩
  | Sample.vanished => ⟨st.lastSize, 0, st.elapsed + 10⟩
  | Sample.osError => ⟨st.lastSize, 0, st.elapsed + 10⟩

/-- Result of a run of `_wait_for_file_ready`:

* `ready size` — the loop exited with `stable_count >= STABLE_CHECKS`
  and logged `last_size` as the stable size;
* `timeout` — the `TimeoutError` raised at the top of an iteration;
* `vanished` — a `FileNotFoundError` propagating to the caller (present
  in the outcome type because the spec names it; see the theorems for
  whether the code can produce it);
* `outOfSamples` — model artifact: the finite sample trace was exhausted
  while the loop was still running.
-/
inductive WaitOutcome where
  | ready (size : Int)
  | timeout
  | vanished
  | outOfSamples
deriving DecidableEq, Repr

/-- The polling loop of `_wait_for_file_ready`, driven by a finite trace
of samples.  Faithful to the control flow: the `while stable_count <
STABLE_CHECKS` condition is tested first, then the strict timeout test
`time.time() - start_time > timeout`, then one iteration body runs. -/
def waitLoop (checks timeLimit : Nat) : List Sample → DetState → WaitOutcome
  | samples, st =>
      if checks ≤ st.stableCount then WaitOutcome.ready st.lastSize
      else if timeLimit < st.elapsed then WaitOutcome.timeout
      else
        match samples with
        | [] => WaitOutcome.outOfSamples
        | s :: rest => waitLoop checks timeLimit rest (detStep st s)

example : waitLoop 3 600 [Sample.ok 7, Sample.ok 7, Sample.ok 7, Sample.ok 7]
    initState = WaitOutcome.ready 7 := by decide

example : waitLoop 3 600 [Sample.ok 7, Sample.ok 7, Sample.ok 7]
    initState = WaitOutcome.outOfSamples := by decide

/-! ### Upload executor: `_upload_to_s3`

`for attempt in range(1, MAX_RETRIES + 1)` tries the transfer once per
iteration.  An `AttemptResult` is what one `s3.upload_file` call would
do: succeed, raise `s3.exceptions.NoSuchBucket`, or raise any other
exception (handled by the blanket `except Exception`, i.e. transient).
-/

inductive AttemptResult where
  | success
  | noSuchBucket
  | transient
deriving DecidableEq, Repr

inductive UploadOutcome where
  | uploaded
  | bucketMissing
  | exhausted
  | incomplete
deriving DecidableEq, Repr

/-- Observable record of one `_upload_to_s3` retry loop: how many
transfer attempts ran, the backoff sleeps (in seconds, in order) and the
terminal outcome.  `incomplete` is a model artifact for a sample trace
shorter than the number of attempts the loop makes. -/
structure UploadTrace where
  attempts : Nat
  sleeps : List Nat
  outcome : UploadOutcome
deriving DecidableEq, Repr

/-- The retry loop of `_upload_to_s3`, starting at attempt number
`attempt` (the Python loop starts at 1).  On success or on
`NoSuchBucket` the function returns at once; on any other exception it
sleeps `2 ** attempt` seconds and retries while `attempt < MAX_RETRIES`,
and otherwise logs the terminal failure and falls out of the loop. -/
def uploadLoop (maxA : Nat) : Nat → List AttemptResult → UploadTrace
  | attempt, results =>
      if maxA < attempt then ⟨0, [], UploadOutcome.exhausted⟩
      else
        match results with
        | [] => ⟨0, [], UploadOutcome.incomplete⟩
        | r :: rest =>
            match r with
            | AttemptResult.success => ⟨1, [], UploadOutcome.uploaded⟩
            | AttemptResult.noSuchBucket => ⟨1, [], UploadOutcome.bucketMissing⟩
            | AttemptResult.transient =>
                if attempt < maxA then
                  let t := uploadLoop maxA (attempt + 1) rest
                  ⟨t.attempts + 1, 2 ^ attempt :: t.sleeps, t.outcome⟩
                else ⟨1, [], UploadOutcome.exhausted⟩

/-- What `on_created` observes from a call of `_upload_to_s3`: the
function either returns `None` or raises.  The only raising statement
outside the all-catching retry loop is the `os.path.getsize` call used
for logging, which raises `FileNotFoundError` when the file vanished
after stabilization. -/
inductive CallerResult where
  | returned
  | raisedFileNotFound
deriving DecidableEq, Repr

/-- `_upload_to_s3` as seen by its caller, plus its observable trace.
`getsizeOk` records whether the preliminary `os.path.getsize` succeeds;
when it does, every path through the retry loop returns `None`. -/
def uploadToS3 (getsizeOk : Bool) (maxA : Nat) (results : List AttemptResult) :
    CallerResult × UploadTrace :=
  if getsizeOk then (CallerResult.returned, uploadLoop maxA 1 results)
  else (CallerResult.raisedFileNotFound, ⟨0, [], UploadOutcome.incomplete⟩)

example :
    uploadLoop 3 1 [AttemptResult.transient, AttemptResult.transient, AttemptResult.transient]
      = ⟨3, [2, 4], UploadOutcome.exhausted⟩ := by decide

example :
    uploadLoop 3 1 [AttemptResult.transient, AttemptResult.success]
      = ⟨2, [2], UploadOutcome.uploaded⟩ := by decide

example :
    uploadLoop 3 1 [AttemptResult.noSuchBucket]
      = ⟨1, [], UploadOutcome.bucketMissing⟩ := by decide

/-! ### Event router and in-flight set: `on_created`

Paths are lists of characters.  `os.path.basename` on the target
platform splits at the last path separator (backslash or slash); every
candidate path is an absolute path below the watch root, so it contains
a separator and drive handling is irrelevant.
-/

def isSep (c : Char) : Bool := c = '\\' || c = '/'

/-- The longest suffix of the path that contains no separator. -/
def basename (p : List Char) : List Char :=
  (p.reverse.takeWhile (fun c => !(isSep c))).reverse

/-- `any(filename.startswith(prefix) for prefix in EXCLUDED_PREFIXES)`:
case-sensitive exact prefix match on the base name. -/
def isExcludedName (name : List Char) : Bool :=
  EXCLUDED_PREFIXES.any (fun pre => List.isPrefixOf pre name)

/-- `path.lower().endswith((".dat", ".bvr", ".avi", ".mov", ".jpg",
".mp4"))`: the whole path is lowercased, then tested against the
lowercase extension tuple. -/
def hasAllowedExt (p : List Char) : Bool :=
  ALLOWED_EXTS.any (fun e => List.isSuffixOf e (p.map Char.toLower))

/-- How the detect-then-upload pipeline body of `on_created` ends: the
`try` completes, or one of the `except` clauses runs
(`FileNotFoundError` / any other exception).  The `finally` clause runs
in every case. -/
inductive PipelineOutcome where
  | success
  | fileNotFound
  | otherError
deriving DecidableEq, Repr

/-- Observable effect of one `on_created` call on the in-flight set
`self.uploading`: whether the pipeline was invoked, the set contents
while the pipeline runs, and the set contents after the handler
returns. -/
structure EventTrace where
  admitted : Bool
  during : List (List Char)
  final : List (List Char)
deriving DecidableEq, Repr

/-- `on_created`, for one event.  The in-flight set is a duplicate-free
list; insertion is `cons` (guarded by the membership test the code just
performed) and `self.uploading.discard(path)` is `List.erase`.  The
pipeline outcome `pipe` decides which `except` clause (if any) runs, but
the `finally` clause removes the path in every case, so the resulting
trace does not depend on `pipe`. -/
def onCreated (st : List (List Char)) (isDir : Bool) (path : List Char)
    (pipe : PipelineOutcome) : EventTrace :=
  if isDir then ⟨false, st, st⟩
  else if isExcludedName (basename path) then ⟨false, st, st⟩
  else if !(hasAllowedExt path) then ⟨false, st, st⟩
  else if path ∈ st then ⟨false, st, st⟩
  else
    match pipe with
    | _ => ⟨true, path :: st, (path :: st).erase path⟩

/-- A whole sequence of creation events, processed in order (the
pipeline runs inline on the handler thread, so each event completes
before the next is handled). -/
def processEvents (st : List (List Char)) :
    List (Bool × List Char × PipelineOutcome) → List (List Char)
  | [] => st
  | (d, p, pipe) :: evs => processEvents (onCreated st d p pipe).final evs

example :
    (onCreated [] false "C:\\BlueIris\\New\\clip.mp4".toList
      PipelineOutcome.success).admitted = true := by decide

example :
    (onCreated [] false "C:\\BlueIris\\New\\xxx123xxx_clip.mp4".toList
      PipelineOutcome.success).admitted = false := by decide

/-! ### Key derivation (inside `_upload_to_s3`)

`key = PREFIX + rel_path.replace("\\", "/")` where `rel_path` is
`os.path.relpath(path, WATCH_DIR)`.  The replacement pattern is a single
character, so `str.replace` is a character map. -/

def winSepToSlash (c : Char) : Char := if c = '\\' then '/' else c

def deriveKey (relPath : List Char) : List Char :=
  KEY_PREF ++ relPath.map winSepToSlash

example : deriveKey "sub\\clip.mp4".toList = "camera/sub/clip.mp4".toList := by decide

/-! ### Startup: `main`

`main()` checks the watch directory, then `s3.head_bucket`.  Every
failure path prints an error and executes a plain `return`; the script
then ends and the interpreter exit code is 0.  A successful startup
blocks in the observer loop until `KeyboardInterrupt`, which is caught,
the observer is stopped and joined, and `main` returns normally. -/

inductive HeadBucketResult where
  | ok
  | noSuchBucket
  | otherError
deriving DecidableEq, Repr

inductive MainOutcome where
  | missingWatchDir
  | bucketMissing
  | connectFailure
  | interrupted
deriving DecidableEq, Repr

/-- `main` as a function from the startup environment to (outcome,
process exit code). -/
def mainRun (watchDirExists : Bool) (head : HeadBucketResult) : MainOutcome × Nat :=
  if !watchDirExists then (MainOutcome.missingWatchDir, 0)
  else
    match head with
    | HeadBucketResult.noSuchBucket => (MainOutcome.bucketMissing, 0)
    | HeadBucketResult.otherError => (MainOutcome.connectFailure, 0)
    | HeadBucketResult.ok => (MainOutcome.interrupted, 0)

/-! ### Helper lemmas: stability detector -/

lemma waitLoop_unfold (checks timeLimit : Nat) (samples : List Sample) (st : DetState) :
    waitLoop checks timeLimit samples st =
      if checks ≤ st.stableCount then WaitOutcome.ready st.lastSize
      else if timeLimit < st.elapsed then WaitOutcome.timeout
      else
        match samples with
        | [] => WaitOutcome.outOfSamples
        | s :: rest => waitLoop checks timeLimit rest (detStep st s) := by
  cases samples <;> rfl

lemma detStep_elapsed_ge (st : DetState) (x : Sample) :
    st.elapsed + 5 ≤ (detStep st x).elapsed := by
  cases x <;> simp [detStep]

lemma detStep_ok_matching (st : DetState) (s : Nat) (hs : 0 < s)
    (hlast : st.lastSize = (s : Int)) :
    detStep st (Sample.ok s) = ⟨(s : Int), st.stableCount + 1, st.elapsed + 5⟩ := by
  simp [detStep, hlast, hs]

/-- Feeding `k` more matching positive-size samples from a state whose
counter needs exactly `k` more to reach `checks` yields the stable size. -/
lemma waitLoop_ready_run :
    ∀ (k checks timeLimit s : Nat) (st : DetState) (rest : List Sample),
      0 < s → st.lastSize = (s : Int) → st.stableCount + k = checks →
      (∀ j, j < k → st.elapsed + 5 * j ≤ timeLimit) →
      waitLoop checks timeLimit (List.replicate k (Sample.ok s) ++ rest) st
        = WaitOutcome.ready (s : Int) := by
  intro k
  induction k with
  | zero =>
      intro checks timeLimit s st rest hs hlast hcount _
      rw [waitLoop_unfold]
      have h1 : checks ≤ st.stableCount := by omega
      simp [h1, hlast]
  | succ k ih =>
      intro checks timeLimit s st rest hs hlast hcount htime
      rw [List.replicate_succ, List.cons_append, waitLoop_unfold]
      have h1 : ¬ checks ≤ st.stableCount := by omega
      have h2 : ¬ timeLimit < st.elapsed := by
        have := htime 0 (Nat.succ_pos k)
        omega
      simp only [h1, if_false, h2]
      rw [detStep_ok_matching st s hs hlast]
      refine ih checks timeLimit s ⟨(s : Int), st.stableCount + 1, st.elapsed + 5⟩ rest hs rfl
        ?_ ?_
      · show st.stableCount + 1 + k = checks
        omega
      · intro j hj
        show st.elapsed + 5 + 5 * j ≤ timeLimit
        have := htime (j + 1) (by omega)
        omega

/-- Feeding only `k` matching samples, with the counter still short of
`checks`, leaves the loop running (the trace is exhausted): the detector
does not succeed before the required consecutive count is reached. -/
lemma waitLoop_pending_run :
    ∀ (k checks timeLimit s : Nat) (st : DetState),
      0 < s → st.lastSize = (s : Int) → st.stableCount + k < checks →
      (∀ j, j ≤ k → st.elapsed + 5 * j ≤ timeLimit) →
      waitLoop checks timeLimit (List.replicate k (Sample.ok s)) st
        = WaitOutcome.outOfSamples := by
  intro k
  induction k with
  | zero =>
      intro checks timeLimit s st hs hlast hcount htime
      rw [waitLoop_unfold]
      have h1 : ¬ checks ≤ st.stableCount := by omega
      have h2 : ¬ timeLimit < st.elapsed := by
        have := htime 0 (Nat.le_refl 0)
        omega
      simp [h1, h2]
  | succ k ih =>
      intro checks timeLimit s st hs hlast hcount htime
      rw [List.replicate_succ, waitLoop_unfold]
      have h1 : ¬ checks ≤ st.stableCount := by omega
      have h2 : ¬ timeLimit < st.elapsed := by
        have := htime 0 (Nat.zero_le _)
        omega
      simp only [h1, if_false, h2]
      rw [detStep_ok_matching st s hs hlast]
      refine ih checks timeLimit s ⟨(s : Int), st.stableCount + 1, st.elapsed + 5⟩ hs rfl ?_ ?_
      · show st.stableCount + 1 + k < checks
        omega
      · intro j hj
        show st.elapsed + 5 + 5 * j ≤ timeLimit
        have := htime (j + 1) (by omega)
        omega

/-- No branch of the polling loop produces the `vanished` outcome: the
`FileNotFoundError` raised for a missing path is caught by the
function's own `except OSError` clause. -/
lemma waitLoop_never_vanished :
    ∀ (samples : List Sample) (checks timeLimit : Nat) (st : DetState),
      waitLoop checks timeLimit samples st ≠ WaitOutcome.vanished := by
  intro samples
  induction samples with
  | nil =>
      intro checks timeLimit st
      rw [waitLoop_unfold]
      split
      · simp
      · split <;> simp
  | cons x rest ih =>
      intro checks timeLimit st
      rw [waitLoop_unfold]
      split
      · simp
      · split
        · simp
        · exact ih checks timeLimit (detStep st x)

/-- A trace of all-zero sizes keeps the counter at zero forever. -/
lemma waitLoop_zero_size :
    ∀ (samples : List Sample) (checks timeLimit : Nat) (st : DetState),
      0 < checks → st.stableCount = 0 → (∀ x ∈ samples, x = Sample.ok 0) →
      ∀ z : Int, waitLoop checks timeLimit samples st ≠ WaitOutcome.ready z := by
  intro samples
  induction samples with
  | nil =>
      intro checks timeLimit st hc hcount _ z
      rw [waitLoop_unfold]
      have h1 : ¬ checks ≤ st.stableCount := by omega
      simp [h1]
      split <;> simp
  | cons x rest ih =>
      intro checks timeLimit st hc hcount hall z
      rw [waitLoop_unfold]
      have h1 : ¬ checks ≤ st.stableCount := by omega
      simp only [h1, if_false]
      split
      · simp
      · have hx : x = Sample.ok 0 := hall x (List.mem_cons_self x rest)
        subst hx
        have hstep : (detStep st (Sample.ok 0)).stableCount = 0 := by
          simp [detStep]
        exact ih checks timeLimit (detStep st (Sample.ok 0)) hc hstep
          (fun y hy => hall y (List.mem_cons_of_mem _ hy)) z

/-- The trace can only run out while every sleep so far kept the elapsed
time at or under the limit; each consumed sample sleeps at least 0.5 s. -/
lemma waitLoop_outOfSamples_le :
    ∀ (samples : List Sample) (checks timeLimit : Nat) (st : DetState),
      waitLoop checks timeLimit samples st = WaitOutcome.outOfSamples →
      st.elapsed + 5 * samples.length ≤ timeLimit := by
  intro samples
  induction samples with
  | nil =>
      intro checks timeLimit st h
      rw [waitLoop_unfold] at h
      by_cases h1 : checks ≤ st.stableCount
      · simp [h1] at h
      · by_cases h2 : timeLimit < st.elapsed
        · simp [h1, h2] at h
        · simp only [List.length_nil]
          omega
  | cons x rest ih =>
      intro checks timeLimit st h
      rw [waitLoop_unfold] at h
      by_cases h1 : checks ≤ st.stableCount
      · simp [h1] at h
      · by_cases h2 : timeLimit < st.elapsed
        · simp [h1, h2] at h
        · simp only [h1, if_false, h2] at h
          have hr := ih checks timeLimit (detStep st x) h
          have hs := detStep_elapsed_ge st x
          simp only [List.length_cons]
          omega

/-! ### Claim theorems: stability detector -/

/-- C2: whenever the detector observes `checks` consecutive successful
reads of the same positive size (each equal to the previously recorded
size), it reports exactly that size as stable and does so the moment the
last of those reads is taken (the trailing trace is not consumed);
before that moment it has not succeeded; and the consecutive counter is
reset to zero on the very first sample (the `-1` sentinel never matches
a real size) and on every inconsistent sample: a changed size, a zero
size, a lock error, or another OS-level read error. -/
theorem detector_stable_success :
    (∀ (checks timeLimit s : Nat) (st : DetState) (rest : List Sample),
        0 < s → st.lastSize = (s : Int) → st.stableCount = 0 →
        (∀ j, j < checks → st.elapsed + 5 * j ≤ timeLimit) →
        waitLoop checks timeLimit (List.replicate checks (Sample.ok s) ++ rest) st
          = WaitOutcome.ready (s : Int))
    ∧ (∀ (checks timeLimit s k : Nat) (st : DetState),
        0 < s → st.lastSize = (s : Int) → st.stableCount = 0 → k < checks →
        (∀ j, j ≤ k → st.elapsed + 5 * j ≤ timeLimit) →
        waitLoop checks timeLimit (List.replicate k (Sample.ok s)) st
          = WaitOutcome.outOfSamples)
    ∧ (∀ sz : Nat, (detStep initState (Sample.ok sz)).stableCount = 0)
    ∧ (∀ (st : DetState) (sz : Nat), ((sz : Int) ≠ st.lastSize ∨ sz = 0) →
        (detStep st (Sample.ok sz)).stableCount = 0)
    ∧ (∀ st : DetState, (detStep st Sample.locked).stableCount = 0
        ∧ (detStep st Sample.osError).stableCount = 0) := by
  refine ⟨?_, ?_, ?_, ?_, ?_⟩
  · intro checks timeLimit s st rest hs hlast hcount htime
    exact waitLoop_ready_run checks checks timeLimit s st rest hs hlast (by omega) htime
  · intro checks timeLimit s k st hs hlast hcount hk htime
    exact waitLoop_pending_run k checks timeLimit s st hs hlast (by omega) htime
  · intro sz
    have hneg : ¬ ((sz : Int) = initState.lastSize ∧ 0 < sz) := by
      rintro ⟨h, _⟩
      have : initState.lastSize = -1 := rfl
      omega
    simp [detStep, hneg]
  · intro st sz h
    have hneg : ¬ ((sz : Int) = st.lastSize ∧ 0 < sz) := by
      rintro ⟨h1, h2⟩
      rcases h with h3 | h3
      · exact h3 h1
      · omega
    simp [detStep, hneg]
  · intro st
    exact ⟨rfl, rfl⟩

/-- Witness for C2: with `stableChecks = 3`, starting right after a read
of size 7, three consecutive reads of 7 yield stable size 7, while two
reads leave it still waiting. -/
theorem detector_stable_success_witness :
    waitLoop 3 600 (List.replicate 3 (Sample.ok 7) ++ []) ⟨((7 : Nat) : Int), 0, 0⟩
      = WaitOutcome.ready ((7 : Nat) : Int)
    ∧ waitLoop 3 600 (List.replicate 2 (Sample.ok 7)) ⟨((7 : Nat) : Int), 0, 0⟩
      = WaitOutcome.outOfSamples := by
  constructor
  · exact detector_stable_success.1 3 600 7 ⟨((7 : Nat) : Int), 0, 0⟩ []
      (by decide) rfl rfl (by intro j hj; show 0 + 5 * j ≤ 600; omega)
  · exact detector_stable_success.2.1 3 600 7 2 ⟨((7 : Nat) : Int), 0, 0⟩
      (by decide) rfl rfl (by decide) (by intro j hj; show 0 + 5 * j ≤ 600; omega)

/-- C5: once the elapsed time exceeds the timeout while the counter is
still short of `stableChecks`, the next loop iteration fails with
`TimeoutError` no matter what further samples would show (so no stable
size is ever returned past the deadline); and the loop cannot keep
polling forever: a trace long enough that its sleeps alone exceed the
timeout is never exhausted, i.e. the detector has terminated with a
success or failure outcome by then. -/
theorem detector_timeout_behavior :
    (∀ (checks timeLimit : Nat) (samples : List Sample) (st : DetState),
        st.stableCount < checks → timeLimit < st.elapsed →
        waitLoop checks timeLimit samples st = WaitOutcome.timeout)
    ∧ (∀ (checks timeLimit : Nat) (samples : List Sample),
        timeLimit < 5 * samples.length →
        waitLoop checks timeLimit samples initState ≠ WaitOutcome.outOfSamples) := by
  constructor
  · intro checks timeLimit samples st hcount htime
    rw [waitLoop_unfold]
    have h1 : ¬ checks ≤ st.stableCount := by omega
    simp [h1, htime]
  · intro checks timeLimit samples hlen hcontra
    have h := waitLoop_outOfSamples_le samples checks timeLimit initState hcontra
    have h0 : initState.elapsed = 0 := rfl
    omega

/-- Witness for C5: a state already past the 60 s deadline times out at
once, and a trace of 121 samples — at least 0.5 s of sleep each, more
than 60 s in total — cannot leave the loop still polling. -/
theorem detector_timeout_behavior_witness :
    waitLoop 3 600 [Sample.ok 7] ⟨(-1 : Int), 0, 601⟩ = WaitOutcome.timeout
    ∧ waitLoop 3 600 (List.replicate 121 Sample.osError) initState
        ≠ WaitOutcome.outOfSamples := by
  constructor
  · exact detector_timeout_behavior.1 3 600 [Sample.ok 7] ⟨(-1 : Int), 0, 601⟩
      (by decide) (by decide)
  · exact detector_timeout_behavior.2 3 600 (List.replicate 121 Sample.osError)
      (by rw [List.length_replicate]; norm_num)

/-- C6: a file whose observed size is zero at every sample is never
reported stable, for any number of samples: the `size > 0` conjunct
keeps the consecutive counter at zero forever. -/
theorem zero_size_never_stable :
    ∀ (checks timeLimit : Nat) (samples : List Sample),
      0 < checks → (∀ x ∈ samples, x = Sample.ok 0) →
      ∀ z : Int, waitLoop checks timeLimit samples initState ≠ WaitOutcome.ready z := by
  intro checks timeLimit samples hc hall z
  exact waitLoop_zero_size samples checks timeLimit initState hc rfl hall z

/-- Witness for C6: five zero-size reads never produce a stable report. -/
theorem zero_size_never_stable_witness :
    waitLoop 3 600 (List.replicate 5 (Sample.ok 0)) initState ≠ WaitOutcome.ready 0 := by
  exact zero_size_never_stable 3 600 (List.replicate 5 (Sample.ok 0)) (by decide)
    (by decide) 0

/-- C1 (code bug): the `Vanished` outcome is unreachable.  The
`FileNotFoundError` raised when `os.path.exists(path)` is false is
raised inside the `try` block whose `except OSError` clause catches it
(`FileNotFoundError` is a subclass of `OSError`), so the loop resets the
counter, sleeps 1 s and polls again; the run ends in `TimeoutError`
instead of propagating the file-not-found error to the caller.  At the
concrete failing input — the path gone from the first sample on, with
the default `stableChecks = 3` and 60 s timeout — 61 swallowed polls end
in the timeout outcome. -/
theorem detector_vanish_swallowed :
    (∀ (checks timeLimit : Nat) (samples : List Sample) (st : DetState),
        waitLoop checks timeLimit samples st ≠ WaitOutcome.vanished)
    ∧ waitLoop STABLE_CHECKS 600 (List.replicate 61 Sample.vanished) initState
        = WaitOutcome.timeout := by
  constructor
  · intro checks timeLimit samples st
    exact waitLoop_never_vanished samples checks timeLimit st
  · decide

/-- Witness for C1: concrete instance of the unreachability half. -/
theorem detector_vanish_swallowed_witness :
    waitLoop 3 600 [Sample.vanished] initState ≠ WaitOutcome.vanished :=
  detector_vanish_swallowed.1 3 600 [Sample.vanished] initState

/-- C9 counterexample: an OS-level read error does NOT clear the last
observed size.  After reading size 5 and then hitting an OS error, the
recorded last size is still 5, and the very next three reads of size 5
reach stability — the size observed before the error counted toward the
consistency of the sample taken right after it. -/
theorem oserror_retains_last_size_cex :
    (detStep ⟨(5 : Int), 0, 5⟩ Sample.osError).lastSize = 5
    ∧ waitLoop 3 600
        [Sample.ok 5, Sample.osError, Sample.ok 5, Sample.ok 5, Sample.ok 5]
        initState = WaitOutcome.ready 5 := by
  decide

/-- C9 amended: a lock (permission) error clears the whole transient
record — counter to zero and last observed size back to the `-1`
sentinel — before the 1 s backoff; any other OS-level read error resets
only the consecutive counter and retains the last observed size, so a
size observed before such an error can count toward the consistency of
the sample taken after it. -/
theorem error_reset_behavior :
    ∀ st : DetState,
      detStep st Sample.locked = ⟨-1, 0, st.elapsed + 10⟩
      ∧ (detStep st Sample.osError).lastSize = st.lastSize
      ∧ (detStep st Sample.osError).stableCount = 0
      ∧ (detStep st Sample.osError).elapsed = st.elapsed + 10 := by
  intro st
  exact ⟨rfl, rfl, rfl, rfl⟩

/-! ### Helper lemmas: upload executor -/

lemma uploadLoop_unfold (maxA attempt : Nat) (results : List AttemptResult) :
    uploadLoop maxA attempt results =
      if maxA < attempt then ⟨0, [], UploadOutcome.exhausted⟩
      else
        match results with
        | [] => ⟨0, [], UploadOutcome.incomplete⟩
        | r :: rest =>
            match r with
            | AttemptResult.success => ⟨1, [], UploadOutcome.uploaded⟩
            | AttemptResult.noSuchBucket => ⟨1, [], UploadOutcome.bucketMissing⟩
            | AttemptResult.transient =>
                if attempt < maxA then
                  ⟨(uploadLoop maxA (attempt + 1) rest).attempts + 1,
                   2 ^ attempt :: (uploadLoop maxA (attempt + 1) rest).sleeps,
                   (uploadLoop maxA (attempt + 1) rest).outcome⟩
                else ⟨1, [], UploadOutcome.exhausted⟩ := by
  cases results with
  | nil => rfl
  | cons r rest => cases r <;> rfl

lemma range'_cons (a k : Nat) : List.range' a (k + 1) = a :: List.range' (a + 1) k := rfl

/-- Consuming `k` transient failures starting at attempt `a` (with
enough budget) performs `k` attempts, sleeps `2^a, ..., 2^(a+k-1)`, and
continues with the rest of the trace at attempt `a + k`. -/
lemma uploadLoop_transient_steps :
    ∀ (k a maxA : Nat) (rest : List AttemptResult), a + k ≤ maxA →
      uploadLoop maxA a (List.replicate k AttemptResult.transient ++ rest)
        = ⟨k + (uploadLoop maxA (a + k) rest).attempts,
           (List.range' a k).map (fun i => 2 ^ i)
             ++ (uploadLoop maxA (a + k) rest).sleeps,
           (uploadLoop maxA (a + k) rest).outcome⟩ := by
  intro k
  induction k with
  | zero =>
      intro a maxA rest _
      simp
  | succ k ih =>
      intro a maxA rest h
      rw [List.replicate_succ, List.cons_append, uploadLoop_unfold]
      have h1 : ¬ maxA < a := by omega
      have h2 : a < maxA := by omega
      simp only [h1, if_false, h2, if_true]
      rw [ih (a + 1) maxA rest (by omega)]
      have ha : a + 1 + k = a + (k + 1) := by omega
      rw [ha, range'_cons]
      simp [UploadTrace.mk.injEq]
      omega

/-- The loop makes at most `maxA` attempts, so a trace at least that
long is never exhausted by the model. -/
lemma uploadLoop_not_incomplete :
    ∀ (results : List AttemptResult) (a maxA : Nat),
      maxA < a + results.length →
      (uploadLoop maxA a results).outcome ≠ UploadOutcome.incomplete := by
  intro results
  induction results with
  | nil =>
      intro a maxA h
      rw [uploadLoop_unfold]
      have h1 : maxA < a := by simpa using h
      simp [h1]
  | cons r rest ih =>
      intro a maxA h
      rw [uploadLoop_unfold]
      by_cases h1 : maxA < a
      · simp [h1]
      · simp only [h1, if_false]
        cases r with
        | success => simp
        | noSuchBucket => simp
        | transient =>
            by_cases h2 : a < maxA
            · simp only [h2, if_true]
              show (uploadLoop maxA (a + 1) rest).outcome ≠ UploadOutcome.incomplete
              exact ih (a + 1) maxA (by simp only [List.length_cons] at h; omega)
            · simp [h2]

/-! ### Claim theorems: upload executor -/

/-- C3: the retry loop of `_upload_to_s3`.  (1) When every attempt fails
transiently, exactly `maxAttempts` transfer attempts run, with a sleep
of `2^attempt` seconds after each failed attempt `1, ...,
maxAttempts-1` and no sleep after the final attempt, ending in the
exhausted outcome.  (2) When the first `k` attempts fail transiently and
attempt `k+1` succeeds (within budget), the loop stops right there —
`k+1` attempts, sleeps after attempts `1..k` only, the rest of the trace
untouched.  (3) When attempt `k+1` raises `NoSuchBucket`, the loop stops
immediately with no sleep after that attempt and no further attempts. -/
theorem upload_retry_policy :
    (∀ (maxA : Nat) (results : List AttemptResult),
        1 ≤ maxA → results.length = maxA →
        (∀ r ∈ results, r = AttemptResult.transient) →
        uploadLoop maxA 1 results
          = ⟨maxA, (List.range' 1 (maxA - 1)).map (fun a => 2 ^ a),
             UploadOutcome.exhausted⟩)
    ∧ (∀ (maxA k : Nat) (rest : List AttemptResult), k < maxA →
        uploadLoop maxA 1
            (List.replicate k AttemptResult.transient ++ AttemptResult.success :: rest)
          = ⟨k + 1, (List.range' 1 k).map (fun a => 2 ^ a), UploadOutcome.uploaded⟩)
    ∧ (∀ (maxA k : Nat) (rest : List AttemptResult), k < maxA →
        uploadLoop maxA 1
            (List.replicate k AttemptResult.transient
              ++ AttemptResult.noSuchBucket :: rest)
          = ⟨k + 1, (List.range' 1 k).map (fun a => 2 ^ a),
             UploadOutcome.bucketMissing⟩) := by
  refine ⟨?_, ?_, ?_⟩
  · intro maxA results hmax hlen hall
    have hrep : results = List.replicate maxA AttemptResult.transient := by
      subst hlen
      exact List.eq_replicate_of_mem hall
    subst hrep
    obtain ⟨m, rfl⟩ : ∃ m, maxA = m + 1 := ⟨maxA - 1, by omega⟩
    rw [List.replicate_succ']
    rw [uploadLoop_transient_steps m 1 (m + 1) [AttemptResult.transient] (by omega)]
    have h1m : 1 + m = m + 1 := by omega
    rw [h1m, uploadLoop_unfold]
    simp [Nat.add_comm]
  · intro maxA k rest hk
    rw [uploadLoop_transient_steps k 1 maxA (AttemptResult.success :: rest) (by omega)]
    rw [uploadLoop_unfold]
    have h1 : ¬ maxA < 1 + k := by omega
    simp [h1]
  · intro maxA k rest hk
    rw [uploadLoop_transient_steps k 1 maxA (AttemptResult.noSuchBucket :: rest) (by omega)]
    rw [uploadLoop_unfold]
    have h1 : ¬ maxA < 1 + k := by omega
    simp [h1]

/-- Witness for C3 with the configured budget `MAX_RETRIES = 3`: three
transient failures exhaust the budget sleeping 2 s then 4 s; one
transient failure followed by success stops after attempt 2 having
slept 2 s; an immediate `NoSuchBucket` stops after attempt 1 with no
sleep even though budget remains. -/
theorem upload_retry_policy_witness :
    uploadLoop 3 1
        [AttemptResult.transient, AttemptResult.transient, AttemptResult.transient]
      = ⟨3, [2, 4], UploadOutcome.exhausted⟩
    ∧ uploadLoop 3 1
        (List.replicate 1 AttemptResult.transient ++ AttemptResult.success :: [])
      = ⟨2, [2], UploadOutcome.uploaded⟩
    ∧ uploadLoop 3 1
        (List.replicate 0 AttemptResult.transient
          ++ AttemptResult.noSuchBucket :: [AttemptResult.success])
      = ⟨1, [], UploadOutcome.bucketMissing⟩ := by
  refine ⟨?_, ?_, ?_⟩
  · exact (upload_retry_policy.1 3
      [AttemptResult.transient, AttemptResult.transient, AttemptResult.transient]
      (by decide) (by decide) (by decide)).trans (by decide)
  · exact (upload_retry_policy.2.1 3 1 [] (by decide)).trans (by decide)
  · exact (upload_retry_policy.2.2 3 0 [AttemptResult.success] (by decide)).trans (by decide)

/-- C10: whenever the preliminary size probe succeeds, `_upload_to_s3`
returns `None` to its caller — there is no return value and no
exception distinguishing the three terminal outcomes (uploaded, bucket
missing, retries exhausted), all of which are reachable and reported
only on the log stream; with a full trace the loop always reaches one
of exactly those three outcomes. -/
theorem upload_returns_normally :
    ∀ (maxA : Nat) (results : List AttemptResult), maxA ≤ results.length →
      (uploadToS3 true maxA results).1 = CallerResult.returned
      ∧ ((uploadToS3 true maxA results).2.outcome = UploadOutcome.uploaded
         ∨ (uploadToS3 true maxA results).2.outcome = UploadOutcome.bucketMissing
         ∨ (uploadToS3 true maxA results).2.outcome = UploadOutcome.exhausted) := by
  intro maxA results h
  refine ⟨rfl, ?_⟩
  have hsnd : (uploadToS3 true maxA results).2 = uploadLoop maxA 1 results := rfl
  rw [hsnd]
  have hni := uploadLoop_not_incomplete results 1 maxA (by omega)
  cases hout : (uploadLoop maxA 1 results).outcome with
  | uploaded => exact Or.inl rfl
  | bucketMissing => exact Or.inr (Or.inl rfl)
  | exhausted => exact Or.inr (Or.inr rfl)
  | incomplete => exact absurd hout hni

/-- Witness for C10: a trace that fails once then succeeds — the caller
sees a plain return. -/
theorem upload_returns_normally_witness :
    (uploadToS3 true 3
        [AttemptResult.transient, AttemptResult.success, AttemptResult.transient]).1
      = CallerResult.returned
    ∧ ((uploadToS3 true 3
          [AttemptResult.transient, AttemptResult.success, AttemptResult.transient]).2.outcome
            = UploadOutcome.uploaded
        ∨ (uploadToS3 true 3
            [AttemptResult.transient, AttemptResult.success, AttemptResult.transient]).2.outcome
            = UploadOutcome.bucketMissing
        ∨ (uploadToS3 true 3
            [AttemptResult.transient, AttemptResult.success, AttemptResult.transient]).2.outcome
            = UploadOutcome.exhausted) :=
  upload_returns_normally 3
    [AttemptResult.transient, AttemptResult.success, AttemptResult.transient] (by decide)

/-! ### Helper lemmas: event router and in-flight set -/

/-- Per-event behavior of `on_created`. -/
lemma onCreated_spec (st : List (List Char)) (isDir : Bool) (path : List Char)
    (pipe : PipelineOutcome) :
    ((onCreated st isDir path pipe).final = st)
    ∧ ((onCreated st isDir path pipe).admitted = true ↔
        (isDir = false ∧ isExcludedName (basename path) = false
         ∧ hasAllowedExt path = true ∧ path ∉ st))
    ∧ ((onCreated st isDir path pipe).admitted = true →
        path ∈ (onCreated st isDir path pipe).during
        ∧ (onCreated st isDir path pipe).during.count path = 1
        ∧ path ∉ (onCreated st isDir path pipe).final)
    ∧ (path ∈ st → (onCreated st isDir path pipe).admitted = false
        ∧ (onCreated st isDir path pipe).during = st) := by
  cases isDir with
  | true => simp [onCreated]
  | false =>
      by_cases h1 : isExcludedName (basename path) = true
      · simp [onCreated, h1]
      · by_cases h2 : hasAllowedExt path = true
        · by_cases h3 : path ∈ st
          · simp [onCreated, h1, h2, h3]
          · have hcount : (path :: st).count path = 1 := by
              rw [List.count_cons_self, List.count_eq_zero_of_not_mem h3]
            simp [onCreated, h1, h2, h3, List.erase_cons_head, hcount,
              Bool.not_eq_true] at *
        · simp [onCreated, h1, h2]

lemma processEvents_id (evs : List (Bool × List Char × PipelineOutcome)) :
    ∀ st : List (List Char), processEvents st evs = st := by
  induction evs with
  | nil => intro st; rfl
  | cons e rest ih =>
      intro st
      obtain ⟨d, p, pipe⟩ := e
      show processEvents (onCreated st d p pipe).final rest = st
      rw [(onCreated_spec st d p pipe).1]
      exact ih st

/-! ### Claim theorem: in-flight set -/

/-- C4: for each creation event, the FINAL in-flight set equals the
starting one (the path is removed on every exit path of the pipeline,
whatever the pipeline outcome `pipe`); the pipeline is invoked exactly
when the event passes the directory, prefix-exclusion, extension and
not-already-in-flight checks; while the pipeline runs the path is a
member, exactly once; a path already in flight is dropped without a
second pipeline and without touching the set; and hence any sequence of
events processed to completion leaves the set unchanged. -/
theorem inflight_set_invariant :
    (∀ (st : List (List Char)) (isDir : Bool) (path : List Char)
        (pipe : PipelineOutcome),
        ((onCreated st isDir path pipe).final = st)
        ∧ ((onCreated st isDir path pipe).admitted = true ↔
            (isDir = false ∧ isExcludedName (basename path) = false
             ∧ hasAllowedExt path = true ∧ path ∉ st))
        ∧ ((onCreated st isDir path pipe).admitted = true →
            path ∈ (onCreated st isDir path pipe).during
            ∧ (onCreated st isDir path pipe).during.count path = 1
            ∧ path ∉ (onCreated st isDir path pipe).final)
        ∧ (path ∈ st → (onCreated st isDir path pipe).admitted = false
            ∧ (onCreated st isDir path pipe).during = st))
    ∧ (∀ (st : List (List Char)) (evs : List (Bool × List Char × PipelineOutcome)),
        processEvents st evs = st) := by
  exact ⟨onCreated_spec, fun st evs => processEvents_id evs st⟩

/-- Witness for C4: a fresh admissible path is admitted, is in the set
during its pipeline, and the set is empty again afterwards; the same
path already in flight is dropped. -/
theorem inflight_set_invariant_witness :
    (onCreated [] false "C:\\BlueIris\\New\\clip.mp4".toList
        PipelineOutcome.fileNotFound).final = []
    ∧ "C:\\BlueIris\\New\\clip.mp4".toList
        ∈ (onCreated [] false "C:\\BlueIris\\New\\clip.mp4".toList
            PipelineOutcome.fileNotFound).during
    ∧ (onCreated ["C:\\BlueIris\\New\\clip.mp4".toList] false
        "C:\\BlueIris\\New\\clip.mp4".toList PipelineOutcome.success).admitted = false := by
  have h := inflight_set_invariant.1 [] false "C:\\BlueIris\\New\\clip.mp4".toList
    PipelineOutcome.fileNotFound
  have h2 := inflight_set_invariant.1 ["C:\\BlueIris\\New\\clip.mp4".toList] false
    "C:\\BlueIris\\New\\clip.mp4".toList PipelineOutcome.success
  have hadm : (onCreated [] false "C:\\BlueIris\\New\\clip.mp4".toList
      PipelineOutcome.fileNotFound).admitted = true := by
    apply h.2.1.mpr
    refine ⟨rfl, by decide, by decide, by simp⟩
  exact ⟨h.1, (h.2.2.1 hadm).1, (h2.2.2.2 (by simp)).1⟩

/-! ### Helper lemmas: key derivation -/

lemma winSep_inj (a b : Char) (ha : a ≠ '/') (hb : b ≠ '/')
    (h : winSepToSlash a = winSepToSlash b) : a = b := by
  unfold winSepToSlash at h
  by_cases h1 : a = '\\'
  · by_cases h2 : b = '\\'
    · rw [h1, h2]
    · rw [if_pos h1, if_neg h2] at h
      exact absurd h.symm hb
  · by_cases h2 : b = '\\'
    · rw [if_neg h1, if_pos h2] at h
      exact absurd h ha
    · rw [if_neg h1, if_neg h2] at h
      exact h

lemma map_winSep_inj :
    ∀ (r1 r2 : List Char), '/' ∉ r1 → '/' ∉ r2 →
      r1.map winSepToSlash = r2.map winSepToSlash → r1 = r2 := by
  intro r1
  induction r1 with
  | nil =>
      intro r2 _ _ h
      cases r2 with
      | nil => rfl
      | cons b m => simp at h
  | cons a l ih =>
      intro r2 h1 h2 h
      cases r2 with
      | nil => simp at h
      | cons b m =>
          simp only [List.map_cons, List.cons.injEq] at h
          have ha : a ≠ '/' := by
            intro hc
            exact h1 (by rw [← hc]; exact List.mem_cons_self a l)
          have hb : b ≠ '/' := by
            intro hc
            exact h2 (by rw [← hc]; exact List.mem_cons_self b m)
          have hl : '/' ∉ l := fun hc => h1 (List.mem_cons_of_mem _ hc)
          have hm : '/' ∉ m := fun hc => h2 (List.mem_cons_of_mem _ hc)
          rw [winSep_inj a b ha hb h.1, ih m hl hm h.2]

/-! ### Claim theorem: key derivation -/

/-- C7: key derivation is deterministic (it is a pure function of the
relative path) and injective on the relative paths the watcher can
produce: `os.path.relpath` on the watched platform emits
backslash-separated paths, whose characters never include a forward
slash, and on such inputs two distinct relative paths always derive
distinct keys (the fixed prefix is prepended and each backslash is
mapped to a forward slash). -/
theorem derive_key_injective :
    ∀ (r1 r2 : List Char), '/' ∉ r1 → '/' ∉ r2 →
      (deriveKey r1 = deriveKey r2 ↔ r1 = r2) := by
  intro r1 r2 h1 h2
  constructor
  · intro h
    unfold deriveKey at h
    exact map_winSep_inj r1 r2 h1 h2 (List.append_cancel_left h)
  · intro h
    rw [h]

/-- Witness for C7: two concrete distinct backslash-separated relative
paths derive distinct keys. -/
theorem derive_key_injective_witness :
    deriveKey "sub\\a.mp4".toList ≠ deriveKey "sub\\b.mp4".toList := by
  have h := derive_key_injective "sub\\a.mp4".toList "sub\\b.mp4".toList
    (by decide) (by decide)
  intro hc
  exact absurd (h.mp hc) (by decide)

/-! ### Claim theorems: process exit codes -/

/-- C8 counterexample: a missing watch root is a startup failure, yet
the process exit code is 0 (and likewise for a missing bucket) — `main`
prints the error and returns normally, so the interpreter exits 0,
refuting the claimed non-zero exit code on startup failure. -/
theorem startup_failure_exit_zero_cex :
    (mainRun false HeadBucketResult.ok).1 = MainOutcome.missingWatchDir
    ∧ (mainRun false HeadBucketResult.ok).2 = 0
    ∧ (mainRun true HeadBucketResult.noSuchBucket).1 = MainOutcome.bucketMissing
    ∧ (mainRun true HeadBucketResult.noSuchBucket).2 = 0 := by
  decide

/-- C8 amended: the process exits with code 0 on clean shutdown
(interrupt) AND on every startup failure — watch root missing, bucket
missing or inaccessible, or store unreachable.  Startup failures are
reported only by printed error messages; `main` returns normally in
every case, so the exit code is always 0. -/
theorem exit_code_always_zero :
    (∀ (dirExists : Bool) (head : HeadBucketResult), (mainRun dirExists head).2 = 0)
    ∧ (mainRun true HeadBucketResult.ok).1 = MainOutcome.interrupted := by
  constructor
  · intro dirExists head
    cases dirExists <;> cases head <;> rfl
  · rfl

end S3Uploader

